import Mathlib

/-
Verification of the streaming-accrual and session-log subsystem of the
stream-flow repository.

The embedding follows the TypeScript source:
  - `src/lib/stream-utils.ts` : `calculateStreamedAmount`, `DEFAULT_FLOW_RATE`
  - `src/hooks/useStreamSubscription.ts` : the subscription state, the
    `updateStreams` tick, `subscribe`, `unsubscribe`, `getStreamAmount`,
    `totalStreaming`
  - `src/hooks/useSessionLogs.ts` : the bounded log history (`addLog` /
    `addLogRaw`)

Numbers (`number` in TS) are modelled as rationals; timestamps are epoch
milliseconds (what `Date.getTime()` returns), so an ISO `started_at` string
is represented post-parse. A JS `Map<string, number>` is modelled as an
association list in insertion order with JS `Map.set` / `Map.delete`
semantics. External store calls (the wallet-authenticated client) are
modelled as explicit `Except` inputs: the operation receives what the store
returned and reacts exactly as the source does.
-/

namespace StreamFlow

/-- Default flow rate from `src/lib/stream-utils.ts`: 0.00001 currency
units per second. -/
def DEFAULT_FLOW_RATE : ℚ := 1 / 100000

/-- `calculateStreamedAmount` from `src/lib/stream-utils.ts`.  The source
reads `now = new Date()` internally; here the current instant `nowMs` is an
explicit argument (epoch milliseconds).  `elapsedSeconds` is
`(now - startTime) / 1000` and the result is `elapsedSeconds * flowRate`.
Note that the source performs no clamping of a negative elapsed time. -/
def calculateStreamedAmount (startTimeMs flowRate nowMs : ℚ) : ℚ :=
  ((nowMs - startTimeMs) / 1000) * flowRate

/-- The `StreamSubscription` row interface from
`src/hooks/useStreamSubscription.ts`.  `started_at` is an ISO timestamp
string in the source, parsed with `new Date(sub.started_at)` before use; it
is modelled post-parse as epoch milliseconds. -/
structure StreamSubscription where
  id : String
  creator_id : String
  started_at : ℚ
  flow_rate : ℚ
  is_active : Bool
  total_streamed : ℚ
deriving DecidableEq

/-- JS `Map.get` on an association list: the value of the first (hence, for
maps built by `mapSet`, the unique) entry with the given key. -/
def mapGet (m : List (String × ℚ)) (k : String) : Option ℚ :=
  (m.find? (fun p => p.1 == k)).map Prod.snd

/-- JS `Map.set`: if the key is present its value is replaced in place
(keys of a JS `Map` are unique, so replacing every matching pair is the
same), otherwise the pair is appended, preserving insertion order. -/
def mapSet (m : List (String × ℚ)) (k : String) (v : ℚ) : List (String × ℚ) :=
  if m.any (fun p => p.1 == k) then
    m.map (fun p => if p.1 == k then (k, v) else p)
  else m ++ [(k, v)]

/-- JS `Map.delete`: removes the entry with the given key, if any. -/
def mapDelete (m : List (String × ℚ)) (k : String) : List (String × ℚ) :=
  m.filter (fun p => p.1 != k)

/-- The snapshot value computed for an active subscription on a tick:
`calculateStreamedAmount(startTime, sub.flow_rate) + sub.total_streamed`
(`useStreamSubscription.ts`, `updateStreams`, lines 90-92). -/
def accruedAmount (sub : StreamSubscription) (nowMs : ℚ) : ℚ :=
  calculateStreamedAmount sub.started_at sub.flow_rate nowMs + sub.total_streamed

/-- `updateStreams` from `src/hooks/useStreamSubscription.ts`: rebuilds the
live snapshot map from scratch, setting one entry per active subscription
(inactive subscriptions are skipped). -/
def updateStreams (subs : List StreamSubscription) (nowMs : ℚ) : List (String × ℚ) :=
  subs.foldl
    (fun acc sub =>
      if sub.is_active then mapSet acc sub.creator_id (accruedAmount sub nowMs)
      else acc) []

/-- `totalStreaming` from `src/hooks/useStreamSubscription.ts`, line 177:
`Array.from(activeStreams.values()).reduce((sum, val) => sum + val, 0)`. -/
def totalStreaming (m : List (String × ℚ)) : ℚ :=
  m.foldl (fun sum p => sum + p.2) 0

/-- The local state of the `useStreamSubscription` hook: the subscription
list and the live snapshot map. -/
structure StreamState where
  subscriptions : List StreamSubscription
  activeStreams : List (String × ℚ)
deriving DecidableEq

/-- `getStreamAmount` from `src/hooks/useStreamSubscription.ts`, lines
169-171: `activeStreams.get(creatorId) || 0`. -/
def getStreamAmount (st : StreamState) (creatorId : String) : ℚ :=
  (mapGet st.activeStreams creatorId).getD 0

/-- One firing of the tick effect (`useStreamSubscription.ts`, lines
79-107): with an empty subscription list the snapshot map is reset to
empty; otherwise `updateStreams` recomputes it wholesale. -/
def tick (st : StreamState) (nowMs : ℚ) : StreamState :=
  if st.subscriptions.isEmpty then { st with activeStreams := [] }
  else { st with activeStreams := updateStreams st.subscriptions nowMs }

/-- Observable outcome of one `subscribe` / `unsubscribe` call: the
resulting hook state, the error rethrown to the caller (if any), how many
store calls were issued, and the `total_streamed` value contained in the
write payload sent to the store (when a call was made). -/
structure OpResult where
  state : StreamState
  thrown : Option String
  storeCalls : Nat
  persistedTotalStreamed : Option ℚ
deriving DecidableEq

/-- `subscribe` from `src/hooks/useStreamSubscription.ts`, lines 109-138.
With no wallet it returns immediately.  Otherwise one upsert is issued
(payload `total_streamed: 0`); `storeResult` is what the store returned.
On error the error is rethrown and no local state is touched; on success
the returned row replaces any subscription with the same creator id. -/
def subscribeOp (walletAddress : Option String) (creatorId : String)
    (st : StreamState) (storeResult : Except String StreamSubscription) : OpResult :=
  match walletAddress with
  | none => ⟨st, none, 0, none⟩
  | some _ =>
    match storeResult with
    | .error e => ⟨st, some e, 1, some 0⟩
    | .ok data =>
      ⟨{ st with subscriptions :=
          st.subscriptions.filter (fun s => s.creator_id != creatorId) ++ [data] },
        none, 1, some 0⟩

/-- `unsubscribe` from `src/hooks/useStreamSubscription.ts`, lines 140-167.
With no wallet it returns immediately.  Otherwise it reads
`currentAmount = activeStreams.get(creatorId) || 0`, issues one update with
payload `{is_active:false, total_streamed: currentAmount}`, and on success
removes the creator from the subscription list and the snapshot map; on
error the error is rethrown and no local state is touched. -/
def unsubscribeOp (walletAddress : Option String) (creatorId : String)
    (st : StreamState) (storeResult : Except String Unit) : OpResult :=
  match walletAddress with
  | none => ⟨st, none, 0, none⟩
  | some _ =>
    let currentAmount := (mapGet st.activeStreams creatorId).getD 0
    match storeResult with
    | .error e => ⟨st, some e, 1, some currentAmount⟩
    | .ok _ =>
      ⟨⟨st.subscriptions.filter (fun s => s.creator_id != creatorId),
        mapDelete st.activeStreams creatorId⟩,
        none, 1, some currentAmount⟩

/-- JS `Array.prototype.slice(start)` start-index normalisation:
a negative start counts from the end (clamped at 0), a non-negative start
is clamped at the length.  `-0` normalises to `0`. -/
def jsSliceStart (len start : Int) : Int :=
  if start < 0 then max (len + start) 0 else min start len

/-- JS `l.slice(start)` for a single argument. -/
def jsSliceFrom (l : List String) (start : Int) : List String :=
  l.drop (jsSliceStart l.length start).toNat

/-- The state update `prev => [...prev.slice(-(maxLogs - 1)), log]` shared
by `addLog` and `addLogRaw` (`src/hooks/useSessionLogs.ts`, lines 110-123).
The rendered entry string is taken as given (its timestamp and randomized
fields come from `Date` / `Math.random`).  Note that for `maxLogs = 1` the
JS expression `-(maxLogs - 1)` is `-0`, which `slice` treats as `0`. -/
def addLog (maxLogs : Int) (logs : List String) (entry : String) : List String :=
  jsSliceFrom logs (-(maxLogs - 1)) ++ [entry]

/-- A sequence of `addLog` / `addLogRaw` calls starting from the empty
history (`useState<string[]>([])`). -/
def addLogAll (maxLogs : Int) (entries : List String) : List String :=
  entries.foldl (addLog maxLogs) []

/-! ### Map lemmas -/

theorem mapGet_mapSet_self (m : List (String × ℚ)) (k : String) (v : ℚ) :
    mapGet (mapSet m k v) k = some v := by
  unfold mapGet mapSet
  by_cases h : m.any (fun p => p.1 == k)
  · simp only [h, if_true]
    induction m with
    | nil => simp at h
    | cons p m ih =>
      by_cases hp : p.1 == k
      · simp [List.find?, hp]
      · simp only [List.any_cons, hp, Bool.false_or] at h
        simpa [List.find?, hp] using ih h
  · simp only [h, if_false]
    induction m with
    | nil => simp [List.find?]
    | cons p m ih =>
      simp only [List.any_cons, Bool.or_eq_true, not_or] at h
      have hp : (p.1 == k) = false := by
        cases hpk : p.1 == k
        · rfl
        · exact absurd hpk h.1
      simp only [List.cons_append, List.find?, hp]
      exact ih (by simpa using h.2)

theorem mapGet_mapSet_ne (m : List (String × ℚ)) (k k' : String) (v : ℚ)
    (hne : k' ≠ k) : mapGet (mapSet m k v) k' = mapGet m k' := by
  unfold mapGet mapSet
  by_cases h : m.any (fun p => p.1 == k)
  · rw [if_pos h]
    clear h
    induction m with
    | nil => simp
    | cons p m ih =>
      by_cases hp : p.1 == k
      · have hk : p.1 = k := by simpa using hp
        have hp' : (p.1 == k') = false := by simp [hk, Ne.symm hne]
        have hkk' : (k == k') = false := by simp [Ne.symm hne]
        simp only [List.map_cons, if_pos hp, List.find?_cons, hkk', hp']
        exact ih
      · simp only [List.map_cons, if_neg hp]
        by_cases hp' : p.1 == k'
        · simp [List.find?_cons, hp']
        · have hb : (p.1 == k') = false := by simpa using hp'
          simp only [List.find?_cons, hb]
          exact ih
  · rw [if_neg h]
    clear h
    induction m with
    | nil =>
      have : (k == k') = false := by simp [Ne.symm hne]
      simp [List.find?, this]
    | cons p m ih =>
      by_cases hp' : p.1 == k'
      · simp [List.cons_append, List.find?_cons, hp']
      · have hb : (p.1 == k') = false := by simpa using hp'
        simp only [List.cons_append, List.find?_cons, hb]
        exact ih

theorem mapGet_mapDelete_self (m : List (String × ℚ)) (k : String) :
    mapGet (mapDelete m k) k = none := by
  unfold mapGet mapDelete
  induction m with
  | nil => simp
  | cons p m ih =>
    by_cases hp : p.1 == k
    · have hb : (p.1 != k) = false := by simp [bne, hp]
      simp only [List.filter, hb]
      exact ih
    · have hbne : (p.1 != k) = true := by simp [bne, hp]
      have hb : (p.1 == k) = false := by simpa using hp
      simp only [List.filter, hbne, List.find?_cons, hb]
      exact ih

theorem mapGet_mapDelete_ne (m : List (String × ℚ)) (k k' : String)
    (hne : k' ≠ k) : mapGet (mapDelete m k) k' = mapGet m k' := by
  unfold mapGet mapDelete
  induction m with
  | nil => simp
  | cons p m ih =>
    by_cases hp' : p.1 == k'
    · have hk' : p.1 = k' := by simpa using hp'
      have hbne : (p.1 != k) = true := by simp [bne, hk', hne]
      simp [List.filter, hbne, List.find?, hp']
    · by_cases hp : p.1 == k
      · have : (p.1 != k) = false := by simp [bne, hp]
        simpa [List.filter, this, List.find?, hp'] using ih
      · have hbne : (p.1 != k) = true := by simp [bne, hp]
        simpa [List.filter, hbne, List.find?, hp'] using ih

/-! ### Fold lemmas for the tick recomputation -/

theorem updateStreams_foldl_absent (nowMs : ℚ) (c : String) :
    ∀ (subs : List StreamSubscription) (acc : List (String × ℚ)),
      (∀ s ∈ subs, s.is_active = true → s.creator_id ≠ c) →
      mapGet (subs.foldl
        (fun acc sub =>
          if sub.is_active then mapSet acc sub.creator_id (accruedAmount sub nowMs)
          else acc) acc) c = mapGet acc c := by
  intro subs
  induction subs with
  | nil => intro acc _; rfl
  | cons s rest ih =>
    intro acc h
    simp only [List.foldl_cons]
    rw [ih _ (fun s' hs' => h s' (List.mem_cons_of_mem _ hs'))]
    by_cases hs : s.is_active = true
    · rw [if_pos hs]
      exact mapGet_mapSet_ne _ _ _ _ (Ne.symm (h s (List.mem_cons_self _ _) hs))
    · rw [if_neg hs]

theorem updateStreams_foldl_unique (nowMs : ℚ) :
    ∀ (subs : List StreamSubscription) (acc : List (String × ℚ))
      (sub : StreamSubscription),
      sub ∈ subs → sub.is_active = true →
      (∀ s ∈ subs, s.creator_id = sub.creator_id → s = sub) →
      mapGet (subs.foldl
        (fun acc sub =>
          if sub.is_active then mapSet acc sub.creator_id (accruedAmount sub nowMs)
          else acc) acc) sub.creator_id = some (accruedAmount sub nowMs) := by
  intro subs
  induction subs with
  | nil => intro acc sub hmem; exact absurd hmem (List.not_mem_nil _)
  | cons s rest ih =>
    intro acc sub hmem hact huniq
    simp only [List.foldl_cons]
    by_cases hr : sub ∈ rest
    · exact ih _ sub hr hact (fun s' hs' => huniq s' (List.mem_cons_of_mem _ hs'))
    · have hsub : s = sub := by
        rcases List.mem_cons.mp hmem with h | h
        · exact h.symm
        · exact absurd h hr
      have habs : ∀ s' ∈ rest, s'.is_active = true → s'.creator_id ≠ sub.creator_id := by
        intro s' hs' _ hc
        exact hr (huniq s' (List.mem_cons_of_mem _ hs') hc ▸ hs')
      rw [updateStreams_foldl_absent nowMs sub.creator_id rest _ habs]
      rw [hsub, if_pos hact]
      exact mapGet_mapSet_self _ _ _

theorem updateStreams_foldl_distinct (nowMs : ℚ) :
    ∀ (subs : List StreamSubscription) (acc : List (String × ℚ)),
      List.Pairwise (fun a b => a.creator_id ≠ b.creator_id) subs →
      (∀ s ∈ subs, (acc.any (fun p => p.1 == s.creator_id)) = false) →
      subs.foldl
        (fun acc sub =>
          if sub.is_active then mapSet acc sub.creator_id (accruedAmount sub nowMs)
          else acc) acc =
        acc ++ (subs.filter (fun s => s.is_active)).map
          (fun s => (s.creator_id, accruedAmount s nowMs)) := by
  intro subs
  induction subs with
  | nil => intro acc _ _; simp
  | cons s rest ih =>
    intro acc hpw hacc
    have hpw' := (List.pairwise_cons.mp hpw).2
    have hhead := (List.pairwise_cons.mp hpw).1
    simp only [List.foldl_cons]
    by_cases hs : s.is_active = true
    · have hset : mapSet acc s.creator_id (accruedAmount s nowMs) =
          acc ++ [(s.creator_id, accruedAmount s nowMs)] := by
        unfold mapSet
        rw [if_neg]
        simp [hacc s (List.mem_cons_self _ _)]
      rw [if_pos hs, hset]
      rw [ih _ hpw' ?_]
      · simp [List.filter_cons, hs, List.append_assoc]
      · intro s' hs'
        simp only [List.any_append, Bool.or_eq_false_iff]
        refine ⟨hacc s' (List.mem_cons_of_mem _ hs'), ?_⟩
        simp [hhead s' hs']
    · rw [if_neg hs]
      rw [ih _ hpw' (fun s' hs' => hacc s' (List.mem_cons_of_mem _ hs'))]
      simp [List.filter_cons, hs]

theorem totalStreaming_foldl (m : List (String × ℚ)) :
    ∀ a : ℚ, m.foldl (fun sum p => sum + p.2) a = a + (m.map Prod.snd).sum := by
  induction m with
  | nil => intro a; simp
  | cons p m ih =>
    intro a
    simp only [List.foldl_cons, List.map_cons, List.sum_cons, ih (a + p.2)]
    ring

/-- `totalStreaming` is the sum of the snapshot map's values. -/
theorem totalStreaming_eq_sum (m : List (String × ℚ)) :
    totalStreaming m = (m.map Prod.snd).sum := by
  unfold totalStreaming
  rw [totalStreaming_foldl m 0, zero_add]

/-! ### Claim theorems -/

/-- C1: for every subscription with `startedAt ≤ now` and `flowRate ≥ 0`
(and one subscription per creator, as the store's upsert key guarantees),
the snapshot entry computed on a tick for that creator is
`calculateStreamedAmount(startedAt, flowRate) + total_streamed`, which
equals `total_streamed + flowRate * (now − startedAt in seconds)`. -/
theorem snapshot_entry_formula (subs : List StreamSubscription)
    (sub : StreamSubscription) (nowMs : ℚ)
    (hmem : sub ∈ subs) (hact : sub.is_active = true)
    (huniq : ∀ s ∈ subs, s.creator_id = sub.creator_id → s = sub)
    (_hstart : sub.started_at ≤ nowMs) (_hrate : 0 ≤ sub.flow_rate) :
    mapGet (updateStreams subs nowMs) sub.creator_id =
      some (calculateStreamedAmount sub.started_at sub.flow_rate nowMs
        + sub.total_streamed) ∧
    calculateStreamedAmount sub.started_at sub.flow_rate nowMs
        + sub.total_streamed =
      sub.total_streamed + sub.flow_rate * ((nowMs - sub.started_at) / 1000) := by
  constructor
  · exact updateStreams_foldl_unique nowMs subs [] sub hmem hact huniq
  · unfold calculateStreamedAmount; ring

/-- Witness for C1: a single active subscription started at epoch 0 with
flow rate 1 and settled amount 2, queried at 3000 ms, yields 2 + 3 = 5. -/
theorem snapshot_entry_formula_witness :
    (⟨"id1", "C1", 0, 1, true, 2⟩ : StreamSubscription) ∈
        [(⟨"id1", "C1", 0, 1, true, 2⟩ : StreamSubscription)] ∧
    (0 : ℚ) ≤ 3000 ∧
    mapGet (updateStreams [⟨"id1", "C1", 0, 1, true, 2⟩] 3000) "C1" =
      some (calculateStreamedAmount 0 1 3000 + 2) := by
  refine ⟨List.mem_singleton_self _, by norm_num, ?_⟩
  exact (snapshot_entry_formula [⟨"id1", "C1", 0, 1, true, 2⟩]
    ⟨"id1", "C1", 0, 1, true, 2⟩ 3000 (List.mem_singleton_self _) rfl
    (by intro s hs _; simpa using hs) (by norm_num) (by norm_num)).1

/-- C2 counterexample: the source performs no clamping.  With
`now = 0 < startedAt = 1000 ms`, flow rate 1 and prior settled amount 5 the
accrued amount is 4, which is not equal to 5 and falls strictly below it. -/
theorem clock_skew_counterexample :
    calculateStreamedAmount 1000 1 0 + 5 = 4 ∧
    ¬(5 ≤ calculateStreamedAmount 1000 1 0 + 5) := by
  constructor <;> norm_num [calculateStreamedAmount]

/-- C2 amended: for `now < startedAt` the accrued amount equals
`priorSettled + flowRate * (now − startedAt)/1000` — the negative elapsed
time is not clamped, so with a positive flow rate the amount falls strictly
below `priorSettled`. -/
theorem clock_skew_no_clamp (startMs rate prior nowMs : ℚ)
    (hskew : nowMs < startMs) (hrate : 0 < rate) :
    calculateStreamedAmount startMs rate nowMs + prior =
      prior + rate * ((nowMs - startMs) / 1000) ∧
    calculateStreamedAmount startMs rate nowMs + prior < prior := by
  constructor
  · unfold calculateStreamedAmount; ring
  · unfold calculateStreamedAmount
    have h1 : (nowMs - startMs) / 1000 < 0 :=
      div_neg_of_neg_of_pos (by linarith) (by norm_num)
    nlinarith

/-- Witness for the amended C2 at `startedAt = 1000 ms`, `flowRate = 1`,
`priorSettled = 5`, `now = 0`. -/
theorem clock_skew_no_clamp_witness :
    (0 : ℚ) < 1000 ∧ (0 : ℚ) < 1 ∧
    calculateStreamedAmount 1000 1 0 + 5 < 5 :=
  ⟨by norm_num, by norm_num,
    (clock_skew_no_clamp 1000 1 5 0 (by norm_num) (by norm_num)).2⟩

/-- C7: for a flow rate ≥ 0 the live accrued amount
(`calculateStreamedAmount + total_streamed`) is monotonically
non-decreasing in the query instant. -/
theorem accrued_monotone (startMs rate prior t1 t2 : ℚ)
    (hrate : 0 ≤ rate) (ht : t1 ≤ t2) :
    calculateStreamedAmount startMs rate t1 + prior ≤
      calculateStreamedAmount startMs rate t2 + prior := by
  unfold calculateStreamedAmount
  have h1 : (t1 - startMs) / 1000 ≤ (t2 - startMs) / 1000 :=
    (div_le_div_iff_of_pos_right (by norm_num : (0 : ℚ) < 1000)).mpr (by linarith)
  have h2 := mul_le_mul_of_nonneg_right h1 hrate
  linarith

/-- Witness for C7 with flow rate 1 between instants 1000 ms and 2000 ms. -/
theorem accrued_monotone_witness :
    (0 : ℚ) ≤ 1 ∧ (1000 : ℚ) ≤ 2000 ∧
    calculateStreamedAmount 0 1 1000 + 3 ≤ calculateStreamedAmount 0 1 2000 + 3 :=
  ⟨by norm_num, by norm_num,
    accrued_monotone 0 1 3 1000 2000 (by norm_num) (by norm_num)⟩

/-- C3 counterexample: unsubscribing while the live amount is 5 persists 5
to the store, but `getStreamAmount` afterwards returns 0, not the settled
value — the claim that the query returns the value settled by the
deactivation is false whenever that value is nonzero. -/
theorem unsubscribe_freeze_counterexample :
    (unsubscribeOp (some "w") "C1"
        ⟨[⟨"id1", "C1", 0, 1, true, 0⟩], [("C1", 5)]⟩ (.ok ())).persistedTotalStreamed
      = some 5 ∧
    getStreamAmount (unsubscribeOp (some "w") "C1"
        ⟨[⟨"id1", "C1", 0, 1, true, 0⟩], [("C1", 5)]⟩ (.ok ())).state "C1" = 0 ∧
    (0 : ℚ) ≠ 5 := by
  refine ⟨by decide, by decide, by norm_num⟩

/-- C3 amended: a successful unsubscribe freezes the queried amount at 0:
`getStreamAmount` for that creator returns 0 immediately afterwards and
still returns 0 after any further tick (the subscription was removed, so no
tick recreates an entry); the last computed live amount is persisted to the
external store as `total_streamed` rather than being readable locally. -/
theorem unsubscribe_freeze_amended (w creatorId : String) (st : StreamState)
    (nowMs : ℚ) :
    getStreamAmount (unsubscribeOp (some w) creatorId st (.ok ())).state creatorId
      = 0 ∧
    getStreamAmount
      (tick (unsubscribeOp (some w) creatorId st (.ok ())).state nowMs) creatorId
      = 0 ∧
    (unsubscribeOp (some w) creatorId st (.ok ())).persistedTotalStreamed =
      some (getStreamAmount st creatorId) := by
  refine ⟨?_, ?_, rfl⟩
  · show (mapGet (mapDelete st.activeStreams creatorId) creatorId).getD 0 = 0
    rw [mapGet_mapDelete_self]
    rfl
  · show getStreamAmount
      (tick ⟨st.subscriptions.filter (fun s => s.creator_id != creatorId),
        mapDelete st.activeStreams creatorId⟩ nowMs) creatorId = 0
    unfold tick
    split
    · rfl
    · unfold getStreamAmount updateStreams
      rw [updateStreams_foldl_absent nowMs creatorId _ [] ?_]
      · rfl
      · intro s hs _ hc
        have hmem := (List.mem_filter.mp hs).2
        rw [hc] at hmem
        simp at hmem

/-- C5: if the store call inside subscribe or unsubscribe returns an error,
the error is rethrown to the caller, exactly one store call was issued (no
retry), and the local subscription list and snapshot map are unchanged. -/
theorem persistence_error_atomic (w creatorId : String) (st : StreamState)
    (e : String) :
    (subscribeOp (some w) creatorId st (.error e)).state = st ∧
    (subscribeOp (some w) creatorId st (.error e)).thrown = some e ∧
    (subscribeOp (some w) creatorId st (.error e)).storeCalls = 1 ∧
    (unsubscribeOp (some w) creatorId st (.error e)).state = st ∧
    (unsubscribeOp (some w) creatorId st (.error e)).thrown = some e ∧
    (unsubscribeOp (some w) creatorId st (.error e)).storeCalls = 1 :=
  ⟨rfl, rfl, rfl, rfl, rfl, rfl⟩

/-- C8: a successful unsubscribe removes exactly the given creator's entry
from the snapshot map, persists that creator's last computed live amount
(`activeStreams.get(creatorId) || 0`) as the new settled amount, leaves
every other creator's snapshot entry unchanged, and keeps exactly the
subscriptions of other creators. -/
theorem unsubscribe_frame (w creatorId : String) (st : StreamState) :
    mapGet (unsubscribeOp (some w) creatorId st (.ok ())).state.activeStreams
        creatorId = none ∧
    (∀ c', c' ≠ creatorId →
      mapGet (unsubscribeOp (some w) creatorId st (.ok ())).state.activeStreams c'
        = mapGet st.activeStreams c') ∧
    (unsubscribeOp (some w) creatorId st (.ok ())).persistedTotalStreamed =
      some ((mapGet st.activeStreams creatorId).getD 0) ∧
    (∀ s : StreamSubscription,
      s ∈ (unsubscribeOp (some w) creatorId st (.ok ())).state.subscriptions ↔
        (s ∈ st.subscriptions ∧ s.creator_id ≠ creatorId)) := by
  refine ⟨mapGet_mapDelete_self _ _,
    fun c' hc' => mapGet_mapDelete_ne _ _ _ hc', rfl, fun s => ?_⟩
  show s ∈ st.subscriptions.filter (fun s => s.creator_id != creatorId) ↔ _
  rw [List.mem_filter]
  simp [bne_iff_ne]

/-- Witness for C8: with live entries for creators C1 and C2,
unsubscribing C1 leaves the C2 entry intact. -/
theorem unsubscribe_frame_witness :
    ("C2" : String) ≠ "C1" ∧
    mapGet (unsubscribeOp (some "w") "C1"
        ⟨[], [("C1", 5), ("C2", 7)]⟩ (.ok ())).state.activeStreams "C2" = some 7 := by
  refine ⟨by decide, ?_⟩
  have h := (unsubscribe_frame "w" "C1" ⟨[], [("C1", 5), ("C2", 7)]⟩).2.1 "C2" (by decide)
  rw [h]
  decide

/-- C9: with a null wallet address, subscribe and unsubscribe return
immediately: no store call, no thrown error, state unchanged. -/
theorem null_wallet_noop (creatorId : String) (st : StreamState)
    (r1 : Except String StreamSubscription) (r2 : Except String Unit) :
    subscribeOp none creatorId st r1 = ⟨st, none, 0, none⟩ ∧
    unsubscribeOp none creatorId st r2 = ⟨st, none, 0, none⟩ :=
  ⟨rfl, rfl⟩

/-- C10: a subscription whose `is_active` flag is false contributes no
entry to the snapshot recomputed by a tick: if every tracked subscription
for a creator is inactive, the recomputed map has no entry for it. -/
theorem inactive_no_snapshot_entry (subs : List StreamSubscription)
    (nowMs : ℚ) (c : String)
    (h : ∀ s ∈ subs, s.creator_id = c → s.is_active = false) :
    mapGet (updateStreams subs nowMs) c = none := by
  unfold updateStreams
  rw [updateStreams_foldl_absent nowMs c subs [] ?_]
  · rfl
  · intro s hs hact hcc
    have hf := h s hs hcc
    rw [hact] at hf
    exact Bool.noConfusion hf

/-- Witness for C10: one inactive subscription yields an empty snapshot at
its creator id. -/
theorem inactive_no_snapshot_entry_witness :
    (∀ s ∈ [(⟨"id1", "C1", 0, 1, false, 2⟩ : StreamSubscription)],
        s.creator_id = "C1" → s.is_active = false) ∧
    mapGet (updateStreams [⟨"id1", "C1", 0, 1, false, 2⟩] 3000) "C1" = none :=
  ⟨by decide, inactive_no_snapshot_entry _ 3000 "C1" (by decide)⟩

/-! ### Log-bound lemmas -/

theorem addLog_eq_drop (m : Int) (hm : 2 ≤ m) (l : List String) (e : String) :
    addLog m l e = l.drop (l.length - (m.toNat - 1)) ++ [e] := by
  unfold addLog jsSliceFrom jsSliceStart
  have hneg : -(m - 1) < 0 := by omega
  rw [if_pos hneg]
  have h1 : (max ((l.length : Int) + -(m - 1)) 0).toNat = l.length - (m.toNat - 1) := by
    rcases le_total ((l.length : Int) + -(m - 1)) 0 with h | h
    · rw [max_eq_right h]; omega
    · rw [max_eq_left h]; omega
  rw [h1]

theorem addLog_foldl_drop (M : Nat) (hM : 2 ≤ M) :
    ∀ (es acc : List String), es ≠ [] →
      es.foldl (fun l e => l.drop (l.length - (M - 1)) ++ [e]) acc =
        (acc ++ es).drop (acc.length + es.length - M) := by
  intro es
  induction es using List.reverseRecOn with
  | nil => intro acc h; exact absurd rfl h
  | append_singleton es e ih =>
    intro acc _
    rw [List.foldl_append]
    simp only [List.foldl_cons, List.foldl_nil]
    by_cases hes : es = []
    · subst hes
      simp only [List.foldl_nil, List.nil_append]
      rw [List.drop_append_of_le_length
        (by simp only [List.length_singleton]; omega :
          acc.length + [e].length - M ≤ acc.length)]
      congr 2
      simp only [List.length_singleton]
      omega
    · rw [ih acc hes]
      rw [List.drop_drop]
      rw [← List.append_assoc]
      have hlen : ((acc ++ es).length) = acc.length + es.length := List.length_append _ _
      rw [List.drop_append_of_le_length
        (by rw [hlen]; simp only [List.length_append, List.length_singleton]; omega :
          acc.length + (es ++ [e]).length - M ≤ (acc ++ es).length)]
      congr 2
      simp only [List.length_drop, List.length_append, List.length_singleton]
      omega

/-! ### Claim theorems for the session log -/

/-- C4 counterexample: with configured maximum 1, the JS update
`prev.slice(-(maxLogs - 1))` is `prev.slice(-0)` = `prev.slice(0)`, which
keeps the whole history: appending two entries retains both, exceeding the
configured maximum. -/
theorem log_bound_counterexample :
    addLogAll 1 ["a", "b"] = ["a", "b"] ∧
    ¬((addLogAll 1 ["a", "b"]).length ≤ 1) := by
  constructor <;> decide

/-- C4 amended: for every configured maximum `m ≥ 2` — in particular the
default 50 — any sequence of appends from the empty history retains exactly
the most recent `min N m` entries in their original relative order (the
suffix of the appended sequence), so the history never exceeds `m`.
(For `m = 1` the bound fails, see the counterexample.) -/
theorem log_bound_amended (m : Int) (entries : List String) (hm : 2 ≤ m) :
    addLogAll m entries = entries.drop (entries.length - m.toNat) ∧
    (addLogAll m entries).length ≤ m.toNat := by
  have hM : 2 ≤ m.toNat := by omega
  have hfun : addLog m = fun l e => l.drop (l.length - (m.toNat - 1)) ++ [e] :=
    funext fun l => funext fun e => addLog_eq_drop m hm l e
  by_cases he : entries = []
  · subst he
    constructor <;> simp [addLogAll]
  · have hfold : addLogAll m entries =
        entries.foldl (fun l e => l.drop (l.length - (m.toNat - 1)) ++ [e]) [] := by
      unfold addLogAll
      rw [hfun]
    rw [hfold, addLog_foldl_drop m.toNat hM entries [] he]
    constructor
    · simp
    · simp only [List.nil_append, List.length_drop, List.length_nil, Nat.zero_add]
      omega

/-- Witness for the amended C4: maximum 2, three appends retain the last
two entries. -/
theorem log_bound_amended_witness :
    (2 : Int) ≤ 2 ∧ addLogAll 2 ["a", "b", "c"] = ["b", "c"] :=
  ⟨le_refl 2, ((log_bound_amended 2 ["a", "b", "c"] (le_refl 2)).1).trans (by decide)⟩

/-- C6: the displayed total is the sum of the snapshot map's per-creator
values, and — one subscription per creator — equals the sum of the accrued
amounts of the active subscriptions on every tick. -/
theorem total_streaming_sum (subs : List StreamSubscription) (nowMs : ℚ) :
    totalStreaming (updateStreams subs nowMs) =
      ((updateStreams subs nowMs).map Prod.snd).sum ∧
    (List.Pairwise (fun a b => a.creator_id ≠ b.creator_id) subs →
      totalStreaming (updateStreams subs nowMs) =
        ((subs.filter (fun s => s.is_active)).map
          (fun s => accruedAmount s nowMs)).sum) := by
  refine ⟨totalStreaming_eq_sum _, fun hpw => ?_⟩
  rw [totalStreaming_eq_sum]
  unfold updateStreams
  rw [updateStreams_foldl_distinct nowMs subs [] hpw (fun s _ => rfl)]
  simp only [List.nil_append, List.map_map]
  rfl

/-- Witness for C6: two active subscriptions for distinct creators; the
total equals the sum of both accrued amounts. -/
theorem total_streaming_sum_witness :
    List.Pairwise (fun a b : StreamSubscription => a.creator_id ≠ b.creator_id)
      [⟨"id1", "C1", 0, 1, true, 0⟩, ⟨"id2", "C2", 0, 2, true, 0⟩] ∧
    totalStreaming (updateStreams
        [⟨"id1", "C1", 0, 1, true, 0⟩, ⟨"id2", "C2", 0, 2, true, 0⟩] 1000) =
      (([(⟨"id1", "C1", 0, 1, true, 0⟩ : StreamSubscription),
         ⟨"id2", "C2", 0, 2, true, 0⟩].filter (fun s => s.is_active)).map
        (fun s => accruedAmount s 1000)).sum :=
  ⟨by decide,
    (total_streaming_sum
      [⟨"id1", "C1", 0, 1, true, 0⟩, ⟨"id2", "C2", 0, 2, true, 0⟩] 1000).2 (by decide)⟩

end StreamFlow
